import Mathlib

/-!
Shallow embedding of the pure helper logic of `f1_dashboard.py`:

* the duration formatters `format_laptime` (line 114) and `format_race_time`
  (line 691), and
* the race-control message classifier: `categorize_message` (line 1230) and the
  penalty extraction loop (lines 1061-1167) covering the penalty gate, the
  driver/car identification, the penalty-type cascade and the lap extraction.

Durations are pandas timedeltas, which are 64-bit counts of nanoseconds; we
model them as integers counting nanoseconds, so `total_seconds()` is the exact
rational `ns / 1e9` and all of Python's float `//` and `%` operations (floor
division and floor modulus by positive constants) become integer `/` and `%`
on the nanosecond count.  `pd.isna` inputs (NaN / NaT) are modelled by
`Option.none` resp. an explicit `missing` constructor.  The `%.3f` rendering
rounds to the nearest millisecond, ties to even, which matches Python's float
formatting away from exact half-millisecond ties.  Python's `str.lower` and the
regex character classes are modelled on ASCII, which is the alphabet of race
control messages.
-/

namespace F1Dashboard

/-- Decimal digit character for a value below ten. -/
def digitCh (d : ℕ) : Char := Char.ofNat (48 + d)

/-- Fuel-driven decimal rendering of a natural number (most significant digit first). -/
def natCharsAux : ℕ → ℕ → List Char
  | 0, _ => []
  | fuel + 1, n =>
    if n < 10 then [digitCh n]
    else natCharsAux fuel (n / 10) ++ [digitCh (n % 10)]

/-- Decimal rendering of a natural number, as Python's str on a non-negative int. -/
def natChars (n : ℕ) : List Char := natCharsAux (n + 1) n

/-- Decimal rendering of an integer, as Python's str on an int. -/
def intChars (i : ℤ) : List Char :=
  if i < 0 then '-' :: natChars (-i).toNat else natChars i.toNat

/-- Left-pad a character list with zeros up to width `w` (Python's `0`-padded format). -/
def padLeftZero (w : ℕ) (l : List Char) : List Char :=
  List.replicate (w - l.length) '0' ++ l

/-- Python whitespace class `\s` (space, tab, newline, carriage return, vertical tab, form feed). -/
def isWs (c : Char) : Bool :=
  c = ' ' || c = '\t' || c = '\n' || c = '\r' || c = Char.ofNat 11 || c = Char.ofNat 12

/-- ASCII upper-case letter, the regex class `[A-Z]`. -/
def isUpperAZ (c : Char) : Bool := 'A' ≤ c && c ≤ 'Z'

/-- ASCII lower-case letter, the regex class `[a-z]`. -/
def isLowerAZ (c : Char) : Bool := 'a' ≤ c && c ≤ 'z'

/-- Lower-cased character data of a string, Python's `str.lower()` on ASCII text. -/
def lowerStr (s : String) : List Char := s.data.map Char.toLower

/-- Substring containment, Python's `needle in hay` on strings. -/
def containsSub : List Char → List Char → Bool
  | [], nd => nd.isEmpty
  | c :: t, nd => nd.isPrefixOf (c :: t) || containsSub t nd

/-- Python's `any(word in message for word in kws)`. -/
def anyKw (kws : List String) (m : List Char) : Bool :=
  kws.any (fun k => containsSub m k.data)

/-! ### Duration formatting (`format_laptime`, line 114; `format_race_time`, line 691) -/

/-- Rounding of `a / b` (for `b > 0`) to the nearest integer, ties to even: the
rounding performed by Python's `%.3f` formatting, applied at millisecond grain. -/
def rndHalfEven (a b : ℤ) : ℤ :=
  let q := a / b
  let r := a % b
  if 2 * r < b then q
  else if b < 2 * r then q + 1
  else if q % 2 = 0 then q else q + 1

/-- Python's `f"{x:06.3f}"` where `x = ns / 1e9` seconds: round to milliseconds,
render with exactly three fractional digits, and zero-pad to total width six.
Only ever applied to `ns ∈ [0, 60e9)`, the result of a positive modulus. -/
def fmt063ns (ns : ℤ) : List Char :=
  let n := (rndHalfEven ns 1000000).toNat
  padLeftZero 6 (natChars (n / 1000) ++ '.' :: padLeftZero 3 (natChars (n % 1000)))

/-- `format_laptime` (line 114): `pd.isna` input gives "N/A"; otherwise
`minutes = int(total_seconds // 60)` and `seconds = total_seconds % 60` are
rendered as `f"{minutes}:{seconds:06.3f}"`.  The nanosecond count `ns` stands
for the timedelta argument. -/
def format_laptime : Option ℤ → String
  | none => "N/A"
  | some ns =>
    String.mk (intChars (ns / 60000000000) ++ ':' :: fmt063ns (ns % 60000000000))

/-- Argument of `format_race_time`: a missing value (`pd.isna`), a timedelta in
nanoseconds (an object with `total_seconds`), or any other value carried
together with its `str()` rendering. -/
inductive TimeValue
  | missing
  | dur (ns : ℤ)
  | other (s : String)
deriving DecidableEq, Repr

/-- `format_race_time` (line 691): "N/A" for `pd.isna` input; for a timedelta,
`hours = int(total_seconds // 3600)`, `minutes = int((total_seconds % 3600) // 60)`,
`seconds = total_seconds % 60`, rendered with the hour field exactly when
`hours > 0`; any other value is rendered with `str`. -/
def format_race_time : TimeValue → String
  | .missing => "N/A"
  | .dur ns =>
    let hours := ns / 3600000000000
    let minutes := (ns % 3600000000000) / 60000000000
    if 0 < hours then
      String.mk (intChars hours ++ ':' :: padLeftZero 2 (intChars minutes)
        ++ ':' :: fmt063ns (ns % 60000000000))
    else
      String.mk (intChars minutes ++ ':' :: fmt063ns (ns % 60000000000))
  | .other s => s

/-! ### Message categorisation (`categorize_message`, line 1230) -/

/-- Message categories; the code's emoji-decorated strings are represented by
bare constructors (`penalty` for "🚨 Penalty", and so on). -/
inductive Category
  | penalty | investigation | safetyCar | flag | drs | general
deriving DecidableEq, Repr

/-- `categorize_message` (line 1230): lower-case the text and test substring
groups in fixed priority order. -/
def categorize_message (m : String) : Category :=
  let ml := lowerStr m
  if anyKw ["penalty", "penalised", "time penalty", "grid penalty"] ml then .penalty
  else if anyKw ["investigation", "incident", "noted"] ml then .investigation
  else if anyKw ["safety car", "virtual safety car", "vsc"] ml then .safetyCar
  else if anyKw ["flag", "yellow", "red", "green"] ml then .flag
  else if anyKw ["drs", "enabled", "disabled"] ml then .drs
  else .general

/-- First-match-wins evaluation of an ordered keyword-group rule list; the
spec describes categorisation as such a priority list ending in `general`. -/
def applyCatRules : List (List String × Category) → List Char → Category
  | [], _ => .general
  | (kws, c) :: rest, ml => if anyKw kws ml then c else applyCatRules rest ml

/-- Categorisation rule list exactly as the claim words it, including the
`penalized` keyword in the penalty group. -/
def catRulesClaim : List (List String × Category) :=
  [(["penalty", "penalised", "penalized", "time penalty", "grid penalty"], .penalty),
   (["investigation", "incident", "noted"], .investigation),
   (["safety car", "virtual safety car", "vsc"], .safetyCar),
   (["flag", "yellow", "red", "green"], .flag),
   (["drs", "enabled", "disabled"], .drs)]

/-- Categorisation as the claim words it (with `penalized`). -/
def categorizeClaim (m : String) : Category := applyCatRules catRulesClaim (lowerStr m)

/-- Categorisation rule list with the penalty keyword group as the code has it:
without `penalized`. -/
def catRulesAmended : List (List String × Category) :=
  [(["penalty", "penalised", "time penalty", "grid penalty"], .penalty),
   (["investigation", "incident", "noted"], .investigation),
   (["safety car", "virtual safety car", "vsc"], .safetyCar),
   (["flag", "yellow", "red", "green"], .flag),
   (["drs", "enabled", "disabled"], .drs)]

/-- Categorisation as the amended claim words it (no `penalized` keyword). -/
def categorizeAmended (m : String) : Category := applyCatRules catRulesAmended (lowerStr m)

/-! ### Penalty gate and penalty-type cascade (lines 1066 and 1113-1134) -/

/-- Keywords of the penalty gate (line 1066). -/
def penaltyGateKws : List String :=
  ["penalty", "penalised", "penalized", "time penalty", "grid penalty", "reprimand"]

/-- Penalty gate (line 1066): only messages containing one of the gate keywords
enter the extraction block. -/
def isGated (m : String) : Bool := anyKw penaltyGateKws (lowerStr m)

/-- Penalty types; the code's strings are represented by constructors
(`fiveSecondTime` for "5 Second Time Penalty", ..., `unknownType` for the
initial "Unknown", which the spec calls `None`). -/
inductive PenaltyType
  | fiveSecondTime | tenSecondTime | thirtySecondTime | genericTime
  | grid | stopAndGo | driveThrough | reprimand | disqualification | warning
  | unknownType
deriving DecidableEq, Repr

/-- Penalty-type cascade (lines 1113-1134), on the lower-cased text. -/
def penaltyTypeOf (m : String) : PenaltyType :=
  let ml := lowerStr m
  if containsSub ml "time penalty".data then
    if containsSub ml "5 sec".data || containsSub ml "5-sec".data then .fiveSecondTime
    else if containsSub ml "10 sec".data || containsSub ml "10-sec".data then .tenSecondTime
    else if containsSub ml "30 sec".data || containsSub ml "30-sec".data then .thirtySecondTime
    else .genericTime
  else if containsSub ml "grid penalty".data then .grid
  else if containsSub ml "stop and go".data || containsSub ml "stop-and-go".data then .stopAndGo
  else if containsSub ml "drive through".data || containsSub ml "drive-through".data then .driveThrough
  else if containsSub ml "reprimand".data then .reprimand
  else if containsSub ml "disqualified".data || containsSub ml "dsq".data then .disqualification
  else if containsSub ml "warning".data then .warning
  else .unknownType

/-- One rule of the spec's penalty-type rule list: every keyword of `req` must
occur, and, unless `alts` is empty, at least one keyword of `alts` must occur. -/
structure PenRule where
  req : List String
  alts : List String
  out : PenaltyType

/-- Whether a penalty-type rule fires on a lower-cased message. -/
def penRuleHit (r : PenRule) (ml : List Char) : Bool :=
  r.req.all (fun k => containsSub ml k.data) &&
  (r.alts.isEmpty || r.alts.any (fun k => containsSub ml k.data))

/-- First-match-wins evaluation of a penalty-type rule list, default `unknownType`. -/
def applyPenRules : List PenRule → List Char → PenaltyType
  | [], _ => .unknownType
  | r :: rest, ml => if penRuleHit r ml then r.out else applyPenRules rest ml

/-- The penalty-type cascade as the claim words it: an ordered rule list where
only the first matching rule applies. -/
def penRulesSpec : List PenRule :=
  [⟨["time penalty"], ["5 sec", "5-sec"], .fiveSecondTime⟩,
   ⟨["time penalty"], ["10 sec", "10-sec"], .tenSecondTime⟩,
   ⟨["time penalty"], ["30 sec", "30-sec"], .thirtySecondTime⟩,
   ⟨["time penalty"], [], .genericTime⟩,
   ⟨[], ["grid penalty"], .grid⟩,
   ⟨[], ["stop and go", "stop-and-go"], .stopAndGo⟩,
   ⟨[], ["drive through", "drive-through"], .driveThrough⟩,
   ⟨[], ["reprimand"], .reprimand⟩,
   ⟨[], ["disqualified", "dsq"], .disqualification⟩,
   ⟨[], ["warning"], .warning⟩]

/-- Penalty type as the claim's first-match-wins rule list computes it. -/
def penaltyTypeSpec (m : String) : PenaltyType := applyPenRules penRulesSpec (lowerStr m)

/-! ### Regex-style searches over the message text

The code uses `re.search` with alternations of literal text followed by a
captured digit run, plus two driver-name patterns.  `re.search` returns the
match at the smallest starting position; greedy `\d+`, `[a-z]+`, `\s+` runs are
maximal takes of their character class, and no backtracking can change the
outcome for these patterns because adjacent classes are disjoint. -/

/-- Match, at the start of `cs`, the literal `lit` followed (after optional
whitespace when `skipWs` is set) by at least one digit; return the digit run. -/
def tryLitNum (lit : List Char) (skipWs : Bool) (cs : List Char) : Option (List Char) :=
  if lit.isPrefixOf cs then
    let r0 := cs.drop lit.length
    let r1 := if skipWs then r0.dropWhile isWs else r0
    let ds := r1.takeWhile Char.isDigit
    if ds.isEmpty then none else some ds
  else none

/-- Leftmost match of `tryLitNum` over all suffixes: `re.search` for
`lit` + optional whitespace + `(\d+)`. -/
def searchLitNum (lit : List Char) (skipWs : Bool) : List Char → Option (List Char)
  | [] => none
  | c :: t =>
    match tryLitNum lit skipWs (c :: t) with
    | some r => some r
    | none => searchLitNum lit skipWs t

/-- Try an ordered list of (literal, whitespace-skip) lap patterns, returning
the digit run of the first pattern in the list that matches anywhere. -/
def searchPatterns : List (List Char × Bool) → List Char → Option (List Char)
  | [], _ => none
  | (lit, ws) :: rest, m =>
    match searchLitNum lit ws m with
    | some r => some r
    | none => searchPatterns rest m

/-- The seven lap regexes of the code (lines 1137-1145), in order:
`lap (\d+)`, `on lap (\d+)`, `at lap (\d+)`, `during lap (\d+)`,
`in lap (\d+)`, `lap\s*(\d+)`, `l(\d+)`. -/
def lapPatternsCode : List (List Char × Bool) :=
  [("lap ".data, false), ("on lap ".data, false), ("at lap ".data, false),
   ("during lap ".data, false), ("in lap ".data, false),
   ("lap".data, true), ("l".data, false)]

/-- Textual lap search of the code: first matching pattern wins. -/
def lapTextSearch (m : List Char) : Option (List Char) :=
  searchPatterns lapPatternsCode m

/-- The six lap patterns exactly as the claim lists them: `lap <n>`,
`on lap <n>`, `at lap <n>`, `during lap <n>`, `in lap <n>`, and the compact
`l<n>` — without the code's `lap\s*(\d+)` pattern. -/
def lapPatternsClaim : List (List Char × Bool) :=
  [("lap ".data, false), ("on lap ".data, false), ("at lap ".data, false),
   ("during lap ".data, false), ("in lap ".data, false), ("l".data, false)]

/-- Textual lap search as the claim words it. -/
def lapClaimSearch (m : List Char) : Option (List Char) :=
  searchPatterns lapPatternsClaim m

/-- Match, at the start of `cs`, one alternative of the car-number regex
`car (\d+)|#(\d+)|no\.?\s*(\d+)` (line 1090), alternatives tried left to
right; return the digit group. -/
def tryCarAt (cs : List Char) : Option (List Char) :=
  match tryLitNum "car ".data false cs with
  | some r => some r
  | none =>
    match tryLitNum "#".data false cs with
    | some r => some r
    | none =>
      if "no".data.isPrefixOf cs then
        let r0 := cs.drop 2
        let r1 := match r0 with
          | '.' :: t => t
          | r => r
        let r2 := r1.dropWhile isWs
        let ds := r2.takeWhile Char.isDigit
        if ds.isEmpty then none else some ds
      else none

/-- `re.search` of the car-number regex: leftmost position at which any
alternative matches. -/
def searchCarNum : List Char → Option (List Char)
  | [] => none
  | c :: t =>
    match tryCarAt (c :: t) with
    | some r => some r
    | none => searchCarNum t

/-- Match, at the start of `cs`, the pattern `([A-Z][a-z]+)\s+([A-Z][a-z]+)`
(line 1104); return the whole match (`group(0)`). -/
def tryNameAt (cs : List Char) : Option (List Char) :=
  match cs with
  | [] => none
  | c :: t =>
    if isUpperAZ c then
      let ls := t.takeWhile isLowerAZ
      if ls.isEmpty then none
      else
        let r1 := t.drop ls.length
        let ws := r1.takeWhile isWs
        if ws.isEmpty then none
        else
          match r1.drop ws.length with
          | [] => none
          | d :: u =>
            if isUpperAZ d then
              let ls2 := u.takeWhile isLowerAZ
              if ls2.isEmpty then none
              else some (((c :: ls) ++ ws) ++ d :: ls2)
            else none
    else none

/-- `re.search` of the `First Last` pattern on the original-case message. -/
def searchFirstLast : List Char → Option (List Char)
  | [] => none
  | c :: t =>
    match tryNameAt (c :: t) with
    | some r => some r
    | none => searchFirstLast t

/-- Match, at the start of `cs`, the pattern `([A-Z]{3})` (line 1105). -/
def tryTlaAt : List Char → Option (List Char)
  | a :: b :: c :: _ =>
    if isUpperAZ a && isUpperAZ b && isUpperAZ c then some [a, b, c] else none
  | _ => none

/-- `re.search` of the three-letter-code pattern. -/
def searchTla : List Char → Option (List Char)
  | [] => none
  | c :: t =>
    match tryTlaAt (c :: t) with
    | some r => some r
    | none => searchTla t

/-- Driver-name search (lines 1101-1111): the `First Last` pattern is tried
first over the whole original-case message, then the three-letter code. -/
def searchName (m : List Char) : Option (List Char) :=
  match searchFirstLast m with
  | some r => some r
  | none => searchTla m

/-! ### Data model and extraction (lines 1061-1167) -/

/-- One roster row: the relevant columns of the session results table,
`DriverNumber` and `BroadcastName` as strings. -/
structure RosterEntry where
  carNumber : String
  label : String
deriving DecidableEq, Repr

/-- One lap-timeline row: `LapNumber` and `LapStartTime` (nanoseconds). -/
structure LapEntry where
  lapNumber : ℕ
  lapStartTime : ℤ
deriving DecidableEq, Repr

/-- One race-control record: the message text plus the optionally present,
non-NA `Driver`, `CarNumber` and `SessionTime` (nanoseconds) fields. -/
structure RCRecord where
  message : String
  driver : Option String
  carNumber : Option String
  sessionTime : Option ℤ
deriving DecidableEq, Repr

/-- First results row whose `DriverNumber` equals `n`, as
`results[results['DriverNumber'] == n].iloc[0]['BroadcastName']`. -/
def rosterLookup (roster : List RosterEntry) (n : String) : Option String :=
  (roster.find? (fun e => e.carNumber == n)).map (fun e => e.label)

/-- Driver and car-number extraction (lines 1077-1111).  Step one: a `Driver`
field is copied; otherwise a `CarNumber` field is copied and resolved against
the roster.  Step two: when the car number is still unknown, the car-number
regex runs on the lower-cased text and a roster hit overwrites the driver.
Step three: when the driver is still unknown, the name patterns run on the
original-case text.  Returns (driver, car number). -/
def extractDriverCar (rec : RCRecord) (roster : List RosterEntry) : String × String :=
  let ml := lowerStr rec.message
  let dc1 : String × String :=
    match rec.driver with
    | some d => (d, "Unknown")
    | none =>
      match rec.carNumber with
      | some cn =>
        (match rosterLookup roster cn with
         | some lbl => lbl
         | none => "Unknown", cn)
      | none => ("Unknown", "Unknown")
  let dc2 : String × String :=
    if dc1.2 = "Unknown" then
      match searchCarNum ml with
      | some ds =>
        (match rosterLookup roster (String.mk ds) with
         | some lbl => lbl
         | none => dc1.1, String.mk ds)
      | none => dc1
    else dc1
  let d3 : String :=
    if dc2.1 = "Unknown" then
      match searchName rec.message.data with
      | some nm => String.mk nm
      | none => dc2.1
    else dc2.1
  (d3, dc2.2)

/-- `laps[laps['LapStartTime'] <= session_time].tail(1)` (line 1161): the last
timeline row, in table order, whose start time is at most `t`. -/
def lapFromTimeline (t : ℤ) (tl : List LapEntry) : Option LapEntry :=
  (tl.filter (fun e => decide (e.lapStartTime ≤ t))).getLast?

/-- Lap extraction (lines 1136-1165): textual patterns first; otherwise, when a
`SessionTime` is present, the timeline lookup; otherwise "Unknown". -/
def extractLap (rec : RCRecord) (tl : List LapEntry) : String :=
  match lapTextSearch (lowerStr rec.message) with
  | some ds => String.mk ds
  | none =>
    match rec.sessionTime with
    | some t =>
      match lapFromTimeline t tl with
      | some e => String.mk (natChars e.lapNumber)
      | none => "Unknown"
    | none => "Unknown"

/-- A structured penalty classification result (the spec's PenaltyAnnotation). -/
structure Annot where
  category : Category
  penaltyType : PenaltyType
  driver : String
  carNumber : String
  lap : String
deriving DecidableEq, Repr

/-- The classifier contract of the spec, assembling the code's two passes:
every message is categorised (line 1230); a message passing the penalty gate
(line 1066) additionally runs the extraction block (lines 1067-1167), while
other messages keep their supplied fields and `unknownType`. -/
def classify (rec : RCRecord) (roster : List RosterEntry) (tl : List LapEntry) : Annot :=
  let cat := categorize_message rec.message
  if isGated rec.message then
    { category := cat, penaltyType := penaltyTypeOf rec.message,
      driver := (extractDriverCar rec roster).1,
      carNumber := (extractDriverCar rec roster).2,
      lap := extractLap rec tl }
  else
    { category := cat, penaltyType := .unknownType,
      driver := rec.driver.getD "Unknown",
      carNumber := rec.carNumber.getD "Unknown",
      lap := "Unknown" }

/-- Decidable form of the pattern `^\d+:\d{2}\.\d{3}$`: one or more digits, a
colon, exactly two digits, a full stop, exactly three digits. -/
def matchesLapPattern (s : String) : Bool :=
  let cs := s.data
  let ds := cs.takeWhile Char.isDigit
  !ds.isEmpty &&
    match cs.drop ds.length with
    | c0 :: a :: b :: c3 :: c :: d :: e :: [] =>
      c0 == ':' && a.isDigit && b.isDigit && c3 == '.'
        && c.isDigit && d.isDigit && e.isDigit
    | _ => false

/-! ### Helper lemmas about decimal rendering -/

theorem natCharsAux_congr : ∀ (f1 f2 n : ℕ), n < f1 → n < f2 →
    natCharsAux f1 n = natCharsAux f2 n := by
  intro f1
  induction f1 with
  | zero => intro f2 n h1 _; omega
  | succ f ih =>
    intro f2 n h1 h2
    cases f2 with
    | zero => omega
    | succ g =>
      by_cases h : n < 10
      · simp [natCharsAux, h]
      · simp only [natCharsAux, if_neg h]
        have hr : n / 10 < f := by omega
        have hg : n / 10 < g := by omega
        rw [ih g (n / 10) hr hg]

/-- Unfolding equation for `natChars`. -/
theorem natChars_eq (n : ℕ) :
    natChars n = if n < 10 then [digitCh n] else natChars (n / 10) ++ [digitCh (n % 10)] := by
  unfold natChars
  by_cases h : n < 10
  · simp [natCharsAux, h]
  · simp only [natCharsAux, if_neg h]
    congr 1
    exact natCharsAux_congr n (n / 10 + 1) (n / 10) (by omega) (by omega)

theorem digitCh_isDigit (d : ℕ) (h : d < 10) : (digitCh d).isDigit = true := by
  interval_cases d <;> decide

theorem natChars_ne_nil (n : ℕ) : natChars n ≠ [] := by
  rw [natChars_eq]
  split
  · simp
  · simp

theorem natChars_all_digit (n : ℕ) : ∀ c ∈ natChars n, c.isDigit = true := by
  induction n using Nat.strong_induction_on with
  | _ n ih =>
    rw [natChars_eq]
    by_cases h : n < 10
    · simp only [if_pos h, List.mem_singleton]
      intro c hc
      exact hc ▸ digitCh_isDigit n h
    · simp only [if_neg h]
      intro c hc
      rcases List.mem_append.mp hc with hc | hc
      · exact ih (n / 10) (by omega) c hc
      · rw [List.mem_singleton] at hc
        exact hc ▸ digitCh_isDigit (n % 10) (by omega)

theorem natChars_length_le_two (n : ℕ) (h : n < 100) : (natChars n).length ≤ 2 := by
  rw [natChars_eq]
  by_cases h1 : n < 10
  · simp [h1]
  · rw [if_neg h1, natChars_eq, if_pos (show n / 10 < 10 by omega)]
    simp

theorem natChars_length_le_three (n : ℕ) (h : n < 1000) : (natChars n).length ≤ 3 := by
  rw [natChars_eq]
  by_cases h1 : n < 10
  · simp [h1]
  · rw [if_neg h1]
    have := natChars_length_le_two (n / 10) (by omega)
    simp only [List.length_append, List.length_singleton]
    omega

theorem padLeftZero_length (w : ℕ) (l : List Char) (h : l.length ≤ w) :
    (padLeftZero w l).length = w := by
  unfold padLeftZero
  simp only [List.length_append, List.length_replicate]
  omega

theorem mem_padLeftZero (w : ℕ) (l : List Char) (c : Char) (h : c ∈ padLeftZero w l) :
    c = '0' ∨ c ∈ l := by
  unfold padLeftZero at h
  rcases List.mem_append.mp h with h | h
  · exact Or.inl (List.eq_of_mem_replicate h)
  · exact Or.inr h

/-- The rendered-seconds field is always two digits, a point, three digits. -/
theorem fmt063ns_shape (ns : ℤ) (h0 : 0 ≤ ns) (h1 : ns < 60000000000) :
    ∃ a b c d e : Char, fmt063ns ns = [a, b, '.', c, d, e]
      ∧ a.isDigit ∧ b.isDigit ∧ c.isDigit ∧ d.isDigit ∧ e.isDigit := by
  have hb : 0 ≤ rndHalfEven ns 1000000 ∧ rndHalfEven ns 1000000 ≤ 60000 := by
    constructor <;> (simp only [rndHalfEven]; split_ifs <;> omega)
  set n : ℕ := (rndHalfEven ns 1000000).toNat with hn
  have hrepr : fmt063ns ns
      = padLeftZero 6 (natChars (n / 1000) ++ '.' :: padLeftZero 3 (natChars (n % 1000))) := rfl
  have hn60 : n ≤ 60000 := by omega
  have hfp : n % 1000 < 1000 := Nat.mod_lt _ (by norm_num)
  obtain ⟨c, d, e, hcde⟩ : ∃ c d e, padLeftZero 3 (natChars (n % 1000)) = [c, d, e] :=
    List.length_eq_three.mp (padLeftZero_length _ _ (natChars_length_le_three _ hfp))
  have hdig3 : ∀ x ∈ padLeftZero 3 (natChars (n % 1000)), x.isDigit = true := fun x hx =>
    (mem_padLeftZero _ _ _ hx).elim (fun he => he ▸ (by decide)) (natChars_all_digit _ x)
  have hcd : c.isDigit ∧ d.isDigit ∧ e.isDigit := by
    refine ⟨hdig3 c ?_, hdig3 d ?_, hdig3 e ?_⟩ <;> rw [hcde] <;> simp
  have hlen2 : (natChars (n / 1000)).length ≤ 2 :=
    natChars_length_le_two _ (by omega)
  have hpos : (natChars (n / 1000)).length ≠ 0 := by
    simpa [List.length_eq_zero] using natChars_ne_nil (n / 1000)
  have hcases : (natChars (n / 1000)).length = 1 ∨ (natChars (n / 1000)).length = 2 := by omega
  rcases hcases with hl | hl
  · obtain ⟨x, hx⟩ := List.length_eq_one.mp hl
    have hxd : x.isDigit = true := natChars_all_digit (n / 1000) x (by rw [hx]; simp)
    refine ⟨'0', x, c, d, e, ?_, by decide, hxd, hcd.1, hcd.2.1, hcd.2.2⟩
    rw [hrepr, hx, hcde]
    rfl
  · obtain ⟨x, y, hxy⟩ := List.length_eq_two.mp hl
    have hxd : x.isDigit = true := natChars_all_digit (n / 1000) x (by rw [hxy]; simp)
    have hyd : y.isDigit = true := natChars_all_digit (n / 1000) y (by rw [hxy]; simp)
    refine ⟨x, y, c, d, e, ?_, hxd, hyd, hcd.1, hcd.2.1, hcd.2.2⟩
    rw [hrepr, hxy, hcde]
    rfl

theorem takeWhile_all_cons_not (p : Char → Bool) : ∀ (xs : List Char) (y : Char) (zs : List Char),
    (∀ x ∈ xs, p x = true) → p y = false →
    (xs ++ y :: zs).takeWhile p = xs := by
  intro xs
  induction xs with
  | nil =>
    intro y zs _ hy
    simp [List.takeWhile_cons, hy]
  | cons a as ih =>
    intro y zs hall hy
    rw [List.cons_append, List.takeWhile_cons, if_pos (hall a (by simp))]
    rw [ih y zs (fun x hx => hall x (by simp [hx])) hy]

theorem count_colon_zero (l : List Char) (h : ∀ c ∈ l, c ≠ ':') : l.count ':' = 0 := by
  induction l with
  | nil => rfl
  | cons a t ih =>
    rw [List.count_cons]
    have ha : (a == ':') = false := beq_eq_false_iff_ne.mpr (h a (by simp))
    simp [ha, ih (fun c hc => h c (List.mem_cons_of_mem _ hc))]

/-! ### Claim theorems -/

/-- C2 counterexample: the claim's penalty keyword group contains `penalized`,
so on the message "penalized" the claimed categorisation yields `Penalty`; the
code's `categorize_message` tests only `penalty`, `penalised`, `time penalty`
and `grid penalty`, so the same message falls through every group and gets
`General`, refuting the claim at this input. -/
theorem categorize_penalized_gap :
    categorize_message "penalized" = Category.general
    ∧ categorize_message "penalized" ≠ Category.penalty
    ∧ categorizeClaim "penalized" = Category.penalty := by decide

/-- C2 amended: categorisation is the first-match-wins priority rule list of
the claim with `penalized` removed from the penalty keyword group — any of
`penalty`, `penalised`, `time penalty`, `grid penalty` gives `Penalty`, else
the investigation, safety-car, flag and DRS groups in order, else `General`
— and is total on strings. -/
theorem categorize_matches_amended_rules :
    ∀ m : String, categorize_message m = categorizeAmended m := by
  intro m
  rfl

/-- C3 counterexample: a negative duration is not `pd.isna`, so both
formatters format it with floor arithmetic instead of returning "N/A":
minus five seconds renders as "-1:55.000" resp. "59:55.000". -/
theorem negative_duration_formatted :
    format_laptime (some (-5000000000)) = "-1:55.000"
    ∧ format_race_time (.dur (-5000000000)) = "59:55.000"
    ∧ format_laptime (some (-5000000000)) ≠ "N/A"
    ∧ format_race_time (.dur (-5000000000)) ≠ "N/A" := by decide

/-- C3 amended: for a NaN (missing) duration both formatters return "N/A";
negative durations are not treated as missing — they are rendered through
Python's floor division and floor modulus, for example minus five seconds as
"-1:55.000" (lap) and "59:55.000" (race). -/
theorem duration_missing_amended :
    format_laptime none = "N/A"
    ∧ format_race_time .missing = "N/A"
    ∧ format_laptime (some (-5000000000)) = "-1:55.000"
    ∧ format_race_time (.dur (-5000000000)) = "59:55.000" := by decide

/-- C5: the nested penalty-type conditionals of the code compute exactly the
claim's first-match-wins cascade: `time penalty` with `5 sec`/`5-sec` gives
FiveSecondTime, with `10 sec`/`10-sec` TenSecondTime, with `30 sec`/`30-sec`
ThirtySecondTime, `time penalty` alone GenericTime; else `grid penalty`,
`stop and go`/`stop-and-go`, `drive through`/`drive-through`, `reprimand`,
`disqualified`/`dsq`, `warning` in order; else the None/Unknown type.  Only
the first matching rule applies. -/
theorem penalty_type_cascade :
    ∀ m : String, penaltyTypeOf m = penaltyTypeSpec m := by
  intro m
  unfold penaltyTypeOf penaltyTypeSpec
  simp only [applyPenRules, penRulesSpec, penRuleHit, List.all_cons, List.all_nil,
    List.any_cons, List.any_nil, List.isEmpty_cons, List.isEmpty_nil, Bool.and_true,
    Bool.true_and, Bool.false_or, Bool.or_false]
  cases h : containsSub (lowerStr m) "time penalty".data <;> simp [h]

/-- C10: a non-missing `format_race_time` input without a `total_seconds`
attribute is returned as its plain `str` rendering — never "N/A" and never a
formatted time — and the call cannot fail; so "N/A" is not the only non-time
string the race-time formatter produces. -/
theorem race_time_passthrough :
    (∀ s : String, format_race_time (.other s) = s)
    ∧ format_race_time (.other "+1 Lap") = "+1 Lap"
    ∧ format_race_time (.other "+1 Lap") ≠ "N/A" :=
  ⟨fun _ => rfl, rfl, by decide⟩

/-- C7: `format_race_time` returns "N/A" on missing input; with
`hours = floor(s / 3600) > 0` it renders
hours, colon, two-digit zero-padded `minutes = floor((s mod 3600) / 60)`,
colon, and the seconds `s mod 60` with three fractional digits padded to
width six; with `hours = 0` its output coincides with `format_laptime`; and
`formatRaceTime(3725.040) = "1:02:05.040"`, `formatRaceTime(65.5) = "1:05.500"`. -/
theorem race_time_format :
    format_race_time .missing = "N/A"
    ∧ (∀ ns : ℤ, 0 < ns / 3600000000000 →
        format_race_time (.dur ns)
          = String.mk (intChars (ns / 3600000000000)
              ++ ':' :: padLeftZero 2 (intChars ((ns % 3600000000000) / 60000000000))
              ++ ':' :: fmt063ns (ns % 60000000000)))
    ∧ (∀ ns : ℤ, 0 ≤ ns → ns / 3600000000000 = 0 →
        format_race_time (.dur ns) = format_laptime (some ns))
    ∧ format_race_time (.dur 3725040000000) = "1:02:05.040"
    ∧ format_race_time (.dur 65500000000) = "1:05.500" := by
  refine ⟨rfl, ?_, ?_, by decide, by decide⟩
  · intro ns h
    show (if 0 < ns / 3600000000000 then _ else _) = _
    rw [if_pos h]
  · intro ns hns h0
    have hmod : ns % 3600000000000 = ns := by omega
    show (if 0 < ns / 3600000000000 then _ else _) = _
    rw [if_neg (by omega), hmod]
    rfl

/-- C7 witness: the hours-zero branch of `race_time_format` applied at 65.5
seconds. -/
theorem race_time_format_witness :
    format_race_time (.dur 65500000000) = format_laptime (some 65500000000) :=
  race_time_format.2.2.1 65500000000 (by decide) (by decide)

/-- C8: `format_laptime` returns "N/A" on missing input; for a non-negative
duration it renders `minutes = floor(s / 60)` in decimal, a colon, and the
seconds `s mod 60` with exactly three fractional digits zero-padded to total
width six; no hour component ever appears (the output contains exactly one
colon); and `formatLapTime(83.456) = "1:23.456"`. -/
theorem lap_time_format :
    format_laptime none = "N/A"
    ∧ (∀ ns : ℤ, 0 ≤ ns →
        format_laptime (some ns)
          = String.mk (natChars (ns / 60000000000).toNat ++ ':' :: fmt063ns (ns % 60000000000))
        ∧ (fmt063ns (ns % 60000000000)).length = 6
        ∧ (format_laptime (some ns)).data.count ':' = 1)
    ∧ format_laptime (some 83456000000) = "1:23.456" := by
  refine ⟨rfl, ?_, by decide⟩
  intro ns h
  have hint : intChars (ns / 60000000000) = natChars (ns / 60000000000).toNat := by
    unfold intChars
    rw [if_neg (by omega)]
  obtain ⟨a, b, c, d, e, hshape, ha, hb, hc, hd, he⟩ :=
    fmt063ns_shape (ns % 60000000000) (by omega) (by omega)
  have hout : format_laptime (some ns)
      = String.mk (natChars (ns / 60000000000).toNat ++ ':' :: fmt063ns (ns % 60000000000)) := by
    show String.mk (intChars (ns / 60000000000) ++ ':' :: fmt063ns (ns % 60000000000)) = _
    rw [hint]
  refine ⟨hout, by rw [hshape]; rfl, ?_⟩
  rw [hout]
  show (natChars (ns / 60000000000).toNat ++ ':' :: fmt063ns (ns % 60000000000)).count ':' = 1
  rw [List.count_append, hshape, List.count_cons]
  rw [count_colon_zero _ (fun x hx hcolon => by
    have := natChars_all_digit _ x hx
    rw [hcolon] at this
    exact absurd this (by decide))]
  rw [count_colon_zero _ (fun x hx hcolon => by
    have hda : x = a ∨ x = b ∨ x = '.' ∨ x = c ∨ x = d ∨ x = e := by simpa using hx
    rcases hda with h1 | h1 | h1 | h1 | h1 | h1 <;> rw [h1] at hcolon <;>
      first
      | (exact absurd (hcolon ▸ ha) (by decide))
      | (exact absurd (hcolon ▸ hb) (by decide))
      | (exact absurd (hcolon ▸ hc) (by decide))
      | (exact absurd (hcolon ▸ hd) (by decide))
      | (exact absurd (hcolon ▸ he) (by decide))
      | (exact absurd hcolon (by decide)))]
  simp

/-- C8 witness: the general statement applied at 83.456 seconds. -/
theorem lap_time_format_witness :
    (format_laptime (some 83456000000)).data.count ':' = 1 :=
  (lap_time_format.2.1 83456000000 (by decide)).2.2

/-- C9: for every non-negative duration, `format_laptime` is total and its
output matches the pattern one-or-more digits, colon, exactly two digits,
point, exactly three digits. -/
theorem lap_time_pattern_safety :
    ∀ ns : ℤ, 0 ≤ ns → matchesLapPattern (format_laptime (some ns)) = true := by
  intro ns h
  obtain ⟨a, b, c, d, e, hshape, ha, hb, hc, hd, he⟩ :=
    fmt063ns_shape (ns % 60000000000) (by omega) (by omega)
  have hint : intChars (ns / 60000000000) = natChars (ns / 60000000000).toNat := by
    unfold intChars
    rw [if_neg (by omega)]
  show matchesLapPattern
      (String.mk (intChars (ns / 60000000000) ++ ':' :: fmt063ns (ns % 60000000000))) = true
  rw [hint, hshape]
  show (let cs := natChars (ns / 60000000000).toNat ++ ':' :: [a, b, '.', c, d, e];
        let ds := cs.takeWhile Char.isDigit;
        !ds.isEmpty &&
          match cs.drop ds.length with
          | c0 :: a :: b :: c3 :: c :: d :: e :: [] =>
            c0 == ':' && a.isDigit && b.isDigit && c3 == '.'
              && c.isDigit && d.isDigit && e.isDigit
          | _ => false) = true
  simp only []
  rw [takeWhile_all_cons_not Char.isDigit _ ':' _ (natChars_all_digit _) (by decide)]
  rw [List.drop_left]
  have hne : (natChars (ns / 60000000000).toNat).isEmpty = false := by
    cases hnil : natChars (ns / 60000000000).toNat with
    | nil => exact absurd hnil (natChars_ne_nil _)
    | cons x xs => rfl
  rw [hne]
  simp [ha, hb, hc, hd, he]

/-- C9 witness: the pattern property applied at 83.456 seconds. -/
theorem lap_time_pattern_safety_witness :
    matchesLapPattern (format_laptime (some 83456000000)) = true :=
  lap_time_pattern_safety 83456000000 (by decide)

/-- The record of the spec's worked classification example: the message alone,
with no driver, car-number or session-time field. -/
def car44Record : RCRecord :=
  ⟨"CAR 44 (HAM) TIME PENALTY 5 SECONDS FOR CAUSING A COLLISION ON LAP 12",
    none, none, none⟩

/-- C6: classifying the record carrying only the text "CAR 44 (HAM) TIME
PENALTY 5 SECONDS FOR CAUSING A COLLISION ON LAP 12" yields, for every roster
and every timeline, category Penalty, penalty type FiveSecondTime, car number
"44" and lap "12". -/
theorem classify_example_car44 :
    ∀ (roster : List RosterEntry) (tl : List LapEntry),
      (classify car44Record roster tl).category = Category.penalty
      ∧ (classify car44Record roster tl).penaltyType = PenaltyType.fiveSecondTime
      ∧ (classify car44Record roster tl).carNumber = "44"
      ∧ (classify car44Record roster tl).lap = "12" := by
  intro roster tl
  have hg : isGated car44Record.message = true := by decide
  have hcl : classify car44Record roster tl =
      { category := categorize_message car44Record.message,
        penaltyType := penaltyTypeOf car44Record.message,
        driver := (extractDriverCar car44Record roster).1,
        carNumber := (extractDriverCar car44Record roster).2,
        lap := extractLap car44Record tl } := by
    unfold classify
    rw [hg]
    rfl
  rw [hcl]
  have hsearch : searchCarNum
      (lowerStr "CAR 44 (HAM) TIME PENALTY 5 SECONDS FOR CAUSING A COLLISION ON LAP 12")
      = some ['4', '4'] := by decide
  have hlap : lapTextSearch (lowerStr car44Record.message) = some ['1', '2'] := by decide
  refine ⟨?_, ?_, ?_, ?_⟩
  · show categorize_message car44Record.message = Category.penalty
    decide
  · show penaltyTypeOf car44Record.message = PenaltyType.fiveSecondTime
    decide
  · show (extractDriverCar car44Record roster).2 = "44"
    cases hr : rosterLookup roster (String.mk ['4', '4']) <;>
      simp [extractDriverCar, car44Record, hsearch, hr]
  · show extractLap car44Record tl = "12"
    simp [extractLap, hlap]

/-- C1 counterexample: the input record carries the driver "Alice Smith", so
step (a) of the claim succeeds, yet the message text contains the car pattern
"car 44" and the roster resolves 44 to "L HAMILTON", which overwrites the
driver: the extraction returns ("L HAMILTON", "44"), so a later step did
change the driver field. -/
theorem driver_overwritten_by_car_pattern :
    (RCRecord.mk "Car 44 time penalty" (some "Alice Smith") none none).driver
        = some "Alice Smith"
    ∧ extractDriverCar (RCRecord.mk "Car 44 time penalty" (some "Alice Smith") none none)
        [⟨"44", "L HAMILTON"⟩] = ("L HAMILTON", "44")
    ∧ ("L HAMILTON" : String) ≠ "Alice Smith" := by decide

/-- C1 amended: a record-supplied driver is kept only when the message text
contains no car-number pattern; when the text does contain one, the car number
is taken from the text even after step (a), and a roster hit overwrites the
driver.  The record's car number (step b) and its roster label are used when
no driver field is present; the name patterns run only while the driver is
still "Unknown"; when nothing succeeds both fields stay "Unknown". -/
theorem driver_car_extraction_amended :
    ∀ (rec : RCRecord) (roster : List RosterEntry),
      (∀ d, rec.driver = some d → d ≠ "Unknown" →
        searchCarNum (lowerStr rec.message) = none →
        extractDriverCar rec roster = (d, "Unknown"))
      ∧ (∀ d ds lbl, rec.driver = some d →
          searchCarNum (lowerStr rec.message) = some ds →
          rosterLookup roster (String.mk ds) = some lbl → lbl ≠ "Unknown" →
          extractDriverCar rec roster = (lbl, String.mk ds))
      ∧ (∀ cn lbl, rec.driver = none → rec.carNumber = some cn → cn ≠ "Unknown" →
          rosterLookup roster cn = some lbl → lbl ≠ "Unknown" →
          extractDriverCar rec roster = (lbl, cn))
      ∧ (rec.driver = none → rec.carNumber = none →
          searchCarNum (lowerStr rec.message) = none →
          searchName rec.message.data = none →
          extractDriverCar rec roster = ("Unknown", "Unknown")) := by
  intro rec roster
  refine ⟨?_, ?_, ?_, ?_⟩
  · intro d h1 hd h2
    simp [extractDriverCar, h1, h2, hd]
  · intro d ds lbl h1 h2 h3 h4
    simp [extractDriverCar, h1, h2, h3, h4]
  · intro cn lbl h1 h2 hcn h3 h4
    simp [extractDriverCar, h1, h2, h3, hcn, h4]
  · intro h1 h2 h3 h4
    simp [extractDriverCar, h1, h2, h3, h4]

/-- C1 witness: the amended statement applied to a record with no driver, no
car number, and a message matching no pattern. -/
theorem driver_car_extraction_amended_witness :
    extractDriverCar (RCRecord.mk "all clear" none none none) [] = ("Unknown", "Unknown") :=
  (driver_car_extraction_amended (RCRecord.mk "all clear" none none none) []).2.2.2
    rfl rfl (by decide) (by decide)

/-- Recursion equation for the timeline lookup: the last satisfying row of
`x :: xs` is the last satisfying row of `xs`, or else `x` when it satisfies. -/
theorem lapFromTimeline_cons (t : ℤ) (x : LapEntry) (xs : List LapEntry) :
    lapFromTimeline t (x :: xs)
      = match lapFromTimeline t xs with
        | some e => some e
        | none => if x.lapStartTime ≤ t then some x else none := by
  unfold lapFromTimeline
  by_cases hx : x.lapStartTime ≤ t
  · rw [List.filter_cons_of_pos (by simpa using hx)]
    cases hf : xs.filter (fun e => decide (e.lapStartTime ≤ t)) with
    | nil => simp [hx]
    | cons y ys =>
      rw [List.getLast?_cons_cons]
      cases hg : (y :: ys).getLast? with
      | none => simp at hg
      | some e => rfl
  · rw [List.filter_cons_of_neg (by simpa using hx)]
    cases hf : xs.filter (fun e => decide (e.lapStartTime ≤ t)) with
    | nil => simp [hx]
    | cons y ys =>
      cases hg : (y :: ys).getLast? with
      | none => simp at hg
      | some e => rfl

/-- On a timeline with nondecreasing start times, the timeline lookup returns
a row whose start time is at most `t` and is greatest among such rows, and
returns nothing exactly when no row qualifies. -/
theorem lapFromTimeline_spec (t : ℤ) :
    ∀ tl : List LapEntry,
      List.Pairwise (fun a b => a.lapStartTime ≤ b.lapStartTime) tl →
      (∀ e, lapFromTimeline t tl = some e →
        e ∈ tl ∧ e.lapStartTime ≤ t
          ∧ ∀ e2 ∈ tl, e2.lapStartTime ≤ t → e2.lapStartTime ≤ e.lapStartTime)
      ∧ (lapFromTimeline t tl = none → ∀ e ∈ tl, ¬ e.lapStartTime ≤ t) := by
  intro tl
  induction tl with
  | nil =>
    intro _
    constructor
    · intro e he
      simp [lapFromTimeline] at he
    · intro _ e he
      simp at he
  | cons x xs ih =>
    intro hp
    have hpx : ∀ y ∈ xs, x.lapStartTime ≤ y.lapStartTime := (List.pairwise_cons.mp hp).1
    have ihs := ih (List.pairwise_cons.mp hp).2
    constructor
    · intro e he
      rw [lapFromTimeline_cons] at he
      cases hxs : lapFromTimeline t xs with
      | some f =>
        rw [hxs] at he
        simp only [] at he
        obtain rfl : f = e := by simpa using he
        obtain ⟨hmem, hle, hmax⟩ := ihs.1 f hxs
        refine ⟨List.mem_cons_of_mem _ hmem, hle, ?_⟩
        intro e2 he2 hle2
        rcases List.mem_cons.mp he2 with rfl | h2
        · exact hpx f hmem
        · exact hmax e2 h2 hle2
      | none =>
        rw [hxs] at he
        simp only [] at he
        by_cases hxt : x.lapStartTime ≤ t
        · rw [if_pos hxt] at he
          obtain rfl : x = e := by simpa using he
          refine ⟨List.mem_cons_self _ _, hxt, ?_⟩
          intro e2 he2 hle2
          rcases List.mem_cons.mp he2 with rfl | h2
          · exact le_refl _
          · exact absurd hle2 (ihs.2 hxs e2 h2)
        · rw [if_neg hxt] at he
          exact absurd he (by simp)
    · intro hn e he
      rw [lapFromTimeline_cons] at hn
      cases hxs : lapFromTimeline t xs with
      | some f =>
        rw [hxs] at hn
        simp at hn
      | none =>
        rw [hxs] at hn
        simp only [] at hn
        by_cases hxt : x.lapStartTime ≤ t
        · rw [if_pos hxt] at hn
          simp at hn
        · rcases List.mem_cons.mp he with rfl | h2
          · exact hxt
          · exact ihs.2 hxs e h2

/-- C4 counterexample: the message "Time penalty for car 7, lap5" matches none
of the claim's six patterns (no space-separated `lap <n>`, no `l` directly
followed by digits), and the record has no session time, so under the claim
the lap stays "Unknown"; the code's additional `lap` + optional-whitespace
pattern matches "lap5" and extracts lap "5". -/
theorem compact_lap_pattern_gap :
    lapClaimSearch (lowerStr "Time penalty for car 7, lap5") = none
    ∧ (RCRecord.mk "Time penalty for car 7, lap5" none none none).sessionTime = none
    ∧ extractLap (RCRecord.mk "Time penalty for car 7, lap5" none none none) [] = "5"
    ∧ ("5" : String) ≠ "Unknown" := by decide

/-- C4 amended: the textual pattern list additionally contains `lap`
followed by optional whitespace and digits; a textual match always wins;
with no textual match and no session time the lap stays "Unknown"; with a
session time the code uses the last timeline row (in table order) whose
start time is at most the session time, which — for a timeline whose start
times are nondecreasing, as for one pre-sorted by lap number chronologically
— is a row with the greatest such start time, and "Unknown" when no row
qualifies. -/
theorem lap_extraction_amended :
    ∀ (rec : RCRecord) (tl : List LapEntry),
      List.Pairwise (fun a b => a.lapStartTime ≤ b.lapStartTime) tl →
      (∀ ds, lapTextSearch (lowerStr rec.message) = some ds →
          extractLap rec tl = String.mk ds)
      ∧ (lapTextSearch (lowerStr rec.message) = none → rec.sessionTime = none →
          extractLap rec tl = "Unknown")
      ∧ (∀ t, lapTextSearch (lowerStr rec.message) = none → rec.sessionTime = some t →
          (lapFromTimeline t tl = none →
            extractLap rec tl = "Unknown" ∧ ∀ e ∈ tl, ¬ e.lapStartTime ≤ t)
          ∧ (∀ e, lapFromTimeline t tl = some e →
              extractLap rec tl = String.mk (natChars e.lapNumber)
              ∧ e.lapStartTime ≤ t
              ∧ ∀ e2 ∈ tl, e2.lapStartTime ≤ t → e2.lapStartTime ≤ e.lapStartTime)) := by
  intro rec tl hp
  refine ⟨?_, ?_, ?_⟩
  · intro ds h
    unfold extractLap
    rw [h]
  · intro h1 h2
    unfold extractLap
    rw [h1, h2]
  · intro t h1 h2
    constructor
    · intro hn
      constructor
      · simp [extractLap, h1, h2, hn]
      · exact (lapFromTimeline_spec t tl hp).2 hn
    · intro e he
      refine ⟨?_, ((lapFromTimeline_spec t tl hp).1 e he).2.1,
        ((lapFromTimeline_spec t tl hp).1 e he).2.2⟩
      simp [extractLap, h1, h2, he]

/-- C4 witness: the textual branch of the amended statement on a message
containing "on lap 3", with the empty (vacuously sorted) timeline. -/
theorem lap_extraction_amended_witness :
    extractLap (RCRecord.mk "Time penalty on lap 3" none none none) [] = String.mk ['3'] :=
  (lap_extraction_amended (RCRecord.mk "Time penalty on lap 3" none none none) []
    List.Pairwise.nil).1 ['3'] (by decide)

end F1Dashboard
